import Mathlib

/-
  Verification development for the Guython interpreter core
  (src/interpreter/guython/core/{evaluator,interpreter,constants,errors}.py).

  Shallow embedding conventions:
  * Python exception classes (errors.py) become the `GuythonErr` inductive.
  * The dynamic value universe becomes `Val`.  Python floats are modelled as
    exact rationals (`Rat`); IEEE rounding is not modelled, and no claim in
    this development depends on a float-valued computation.
  * Expression strings are represented by their parsed ASTs (`GExpr`), i.e.
    the output of Python's `ast.parse(expr, mode='eval')` restricted to the
    node kinds `_eval_node` dispatches on.  Python parses `a ^ b` as
    `BinOp BitXor` and `a ** b` as `BinOp Pow`; both operators appear in
    `BOp` so that both surface spellings are representable.
  * Mutable interpreter state (self.variables, self.if_stack, ...) becomes
    explicit state passing over `Vars` / `InterpState`.
-/

namespace Guython

/-- Mirror of errors.py: GuythonSyntaxError, GuythonRuntimeError,
GuythonSecurityError and the GuythonGotoException control signal. -/
inductive GuythonErr where
  | runtimeError (msg : String)
  | securityError (msg : String)
  | syntaxError (msg : String)
  | gotoSignal (target : Nat)
deriving DecidableEq, Repr

/-- Mirror of Python `str(e)` on a Guython exception: the message carried by
the exception (`GuythonGotoException.__init__` sets "Goto line N"). -/
def GuythonErr.message : GuythonErr → String
  | .runtimeError m => m
  | .securityError m => m
  | .syntaxError m => m
  | .gotoSignal t => "Goto line " ++ toString t

/-- The dynamic value universe of the interpreter.  `record` models
`types.SimpleNamespace` objects created by `_handle_import`; `builtin`
models the host callables stored in SAFE_FUNCTIONS. -/
inductive Val where
  | int (n : Int)
  | float (q : Rat)
  | str (s : String)
  | bool (b : Bool)
  | list (xs : List Val)
  | builtin (name : String)
  | record (fields : List (String × Val))

/-- Python `type(v).__name__` for the modelled values. -/
def Val.typeName : Val → String
  | .int _ => "int"
  | .float _ => "float"
  | .str _ => "str"
  | .bool _ => "bool"
  | .list _ => "list"
  | .builtin _ => "builtin_function_or_method"
  | .record _ => "SimpleNamespace"

/-- Rough mirror of Python `str(v)`, used only inside error messages whose
exact text no theorem inspects. -/
def Val.pyStr : Val → String
  | .int n => toString n
  | .float q => toString q
  | .str s => s
  | .bool b => if b then "True" else "False"
  | .list _ => "[...]"
  | .builtin n => "<built-in function " ++ n ++ ">"
  | .record _ => "namespace(...)"

/-- Python truthiness (`bool(v)`), as used by `while evaluator.evaluate(...):`
and by `_handle_if`. -/
def Val.truthy : Val → Bool
  | .int n => n != 0
  | .float q => q != 0
  | .str s => s != ""
  | .bool b => b
  | .list xs => !xs.isEmpty
  | .builtin _ => true
  | .record _ => true

/-- Python numeric views: `bool` is a subclass of `int`, so both participate
in integer arithmetic. -/
def Val.asIntNum : Val → Option Int
  | .int n => some n
  | .bool b => some (if b then 1 else 0)
  | _ => none

/-- The variable environment `self.variables`: a flat mapping from identifier
to value, modelled as an association list whose observable interface is
`lookupVar`. -/
abbrev Vars := List (String × Val)

def lookupVar (x : String) : Vars → Option Val
  | [] => none
  | p :: rest => if p.1 == x then some p.2 else lookupVar x rest

/-- Dict assignment `self.variables[x] = val`. -/
def insertVar (x : String) (val : Val) (v : Vars) : Vars :=
  (x, val) :: v.filter (fun p => p.1 != x)

/-- Dict deletion `del self.variables[x]`. -/
def eraseVar (x : String) (v : Vars) : Vars :=
  v.filter (fun p => p.1 != x)

/-- Binary operator AST nodes produced by `ast.parse` for the binary
expressions the language surface can spell.  Python parses `^` as `bitXor`
and `**` as `pow`. -/
inductive BOp where
  | add | sub | mult | div | floorDiv | mod | pow
  | bitXor | bitAnd | bitOr | lshift | rshift
deriving DecidableEq, Repr

/-- Python `type(node.op).__name__` for each operator node. -/
def BOp.pyName : BOp → String
  | .add => "Add"
  | .sub => "Sub"
  | .mult => "Mult"
  | .div => "Div"
  | .floorDiv => "FloorDiv"
  | .mod => "Mod"
  | .pow => "Pow"
  | .bitXor => "BitXor"
  | .bitAnd => "BitAnd"
  | .bitOr => "BitOr"
  | .lshift => "LShift"
  | .rshift => "RShift"

/-- The `op_map` dictionary of `_eval_node`'s BinOp branch (evaluator.py
lines 88-92): only Add/Sub/Mult/Div/FloorDiv/Mod/Pow are mapped; in
particular BitXor (the parse of `^`) has no entry. -/
def BOp.opSymbol : BOp → Option String
  | .add => some "+"
  | .sub => some "-"
  | .mult => some "*"
  | .div => some "/"
  | .floorDiv => some "//"
  | .mod => some "%"
  | .pow => some "**"
  | _ => none

/-- Comparison operator nodes. -/
inductive COp where
  | eq | ne | lt | le | gt | ge
deriving DecidableEq, Repr

def COp.pyName : COp → String
  | .eq => "Eq"
  | .ne => "NotEq"
  | .lt => "Lt"
  | .le => "LtE"
  | .gt => "Gt"
  | .ge => "GtE"

/-- Python `==` on modelled values, restricted to the comparisons the
claims exercise: numeric (with bool promoted to int), float, string and
boolean values.  Equality between values of unrelated types is `False` in
Python; other object identities are not modelled. -/
def valEq (a b : Val) : Bool :=
  match a.asIntNum, b.asIntNum with
  | some x, some y => x == y
  | _, _ =>
    match a, b with
    | .str x, .str y => x == y
    | .float x, .float y => x == y
    | .int x, .float y => (x : Rat) == y
    | .float x, .int y => x == (y : Rat)
    | _, _ => false

/-- SAFE_OPERATIONS comparison entries (operator.eq/ne/lt/le/gt/ge):
numeric and string comparisons succeed; ordered comparison between
unrelated types raises TypeError, modelled as a runtime error (the host
TypeError text is not reproduced). -/
def compareVals (op : COp) (a b : Val) : Except GuythonErr Bool :=
  match op with
  | .eq => .ok (valEq a b)
  | .ne => .ok (!valEq a b)
  | _ =>
    match a.asIntNum, b.asIntNum with
    | some x, some y =>
      match op with
      | .lt => .ok (x < y)
      | .le => .ok (decide (x ≤ y))
      | .gt => .ok (x > y)
      | .ge => .ok (decide (x ≥ y))
      | _ => .error (.runtimeError "unreachable comparison")
    | _, _ =>
      match a, b with
      | .str x, .str y =>
        match op with
        | .lt => .ok (x < y)
        | .le => .ok (decide (x ≤ y))
        | .gt => .ok (y < x)
        | .ge => .ok (decide (y ≤ x))
        | _ => .error (.runtimeError "unreachable comparison")
      | _, _ => .error (.runtimeError ("unsupported comparison between " ++ a.typeName ++ " and " ++ b.typeName))

/-- The SAFE_OPERATIONS table of constants.py, keyed by operator symbol.
Note the table itself maps BOTH "**" and "^" to `operator.pow` ("Guython
uses ^ for power"); whether the `^` entry is ever reachable is a property
of the evaluator, not of this table.  Division by zero and mixed-type
operands raise host exceptions, modelled as runtime errors.  True division
produces a float, modelled as an exact rational. -/
def applySafeOp (sym : String) (a b : Val) : Except GuythonErr Val :=
  if sym == "==" then .ok (.bool (valEq a b))
  else if sym == "!=" then .ok (.bool (!valEq a b))
  else if sym == "<" then (compareVals .lt a b).map Val.bool
  else if sym == "<=" then (compareVals .le a b).map Val.bool
  else if sym == ">" then (compareVals .gt a b).map Val.bool
  else if sym == ">=" then (compareVals .ge a b).map Val.bool
  else
    match a.asIntNum, b.asIntNum with
    | some x, some y =>
      if sym == "+" then .ok (.int (x + y))
      else if sym == "-" then .ok (.int (x - y))
      else if sym == "*" then .ok (.int (x * y))
      else if sym == "/" then
        if y == 0 then .error (.runtimeError "division by zero")
        else .ok (.float ((x : Rat) / (y : Rat)))
      else if sym == "//" then
        if y == 0 then .error (.runtimeError "integer division or modulo by zero")
        else .ok (.int (Int.fdiv x y))
      else if sym == "%" then
        if y == 0 then .error (.runtimeError "integer division or modulo by zero")
        else .ok (.int (Int.fmod x y))
      else if sym == "**" || sym == "^" then
        if 0 ≤ y then .ok (.int (x ^ y.toNat))
        else .ok (.float ((x : Rat) ^ y))
      else .error (.runtimeError ("unknown operation: " ++ sym))
    | _, _ =>
      match a, b with
      | .str x, .str y =>
        if sym == "+" then .ok (.str (x ++ y))
        else .error (.runtimeError ("unsupported operand types for " ++ sym))
      | .list x, .list y =>
        if sym == "+" then .ok (.list (x ++ y))
        else .error (.runtimeError ("unsupported operand types for " ++ sym))
      | _, _ => .error (.runtimeError ("unsupported operand types for " ++ sym ++ ": " ++ a.typeName ++ " and " ++ b.typeName))

/-- Names of the SAFE_FUNCTIONS allow-list (constants.py). -/
def safeFunctionNames : List String :=
  ["abs", "round", "int", "float", "str", "len", "max", "min", "sum",
   "sqrt", "sin", "cos", "tan", "pi", "e"]

/-- SAFE_FUNCTIONS as a value environment: callables become `Val.builtin`;
the entries `pi` and `e` are float constants (math.pi, math.e), hence not
callable. -/
def safeFunctionsEnv : Vars :=
  [("abs", .builtin "abs"), ("round", .builtin "round"), ("int", .builtin "int"),
   ("float", .builtin "float"), ("str", .builtin "str"), ("len", .builtin "len"),
   ("max", .builtin "max"), ("min", .builtin "min"), ("sum", .builtin "sum"),
   ("sqrt", .builtin "sqrt"), ("sin", .builtin "sin"), ("cos", .builtin "cos"),
   ("tan", .builtin "tan"),
   ("pi", .float (3.141592653589793 : Rat)), ("e", .float (2.718281828459045 : Rat))]

/-- Application of a SAFE_FUNCTIONS callable.  `abs` and `len` are given
their real semantics; the float-valued math builtins lie outside the value
model and are marked by an error (no claim evaluates them successfully). -/
def applyBuiltin (name : String) (args : List Val) : Except GuythonErr Val :=
  if name == "abs" then
    match args with
    | [v] =>
      match v.asIntNum with
      | some n => .ok (.int (Int.natAbs n))
      | none =>
        match v with
        | .float q => .ok (.float (abs q))
        | _ => .error (.runtimeError "bad operand type for abs()")
    | _ => .error (.runtimeError "abs() takes exactly one argument")
  else if name == "len" then
    match args with
    | [.str s] => .ok (.int s.length)
    | [.list xs] => .ok (.int xs.length)
    | [v] => .error (.runtimeError ("object of type " ++ v.typeName ++ " has no len()"))
    | _ => .error (.runtimeError "len() takes exactly one argument")
  else .error (.runtimeError ("builtin not modelled: " ++ name))

/-- Expression AST: the restriction of Python's `ast` node universe that
`_eval_node` dispatches on (Call, Attribute, Constant, Name, BinOp,
Compare).  Keyword arguments are omitted: no claim constructs them. -/
inductive GExpr where
  | name (id : String)
  | intLit (n : Int)
  | strLit (s : String)
  | boolLit (b : Bool)
  | call (fn : GExpr) (args : List GExpr)
  | attrGet (obj : GExpr) (attrName : String)
  | binop (op : BOp) (l r : GExpr)
  | compareChain (l : GExpr) (rest : List (COp × GExpr))
deriving Repr

/-- Attribute lookup `hasattr(obj, attr)` / `getattr(obj, attr)`:
implemented for SimpleNamespace records (the only objects `_handle_import`
binds); attributes of host builtins are not modelled (no claim reads
them). -/
def attrLookup (v : Val) (a : String) : Option Val :=
  match v with
  | .record fields => (fields.find? (fun p => p.1 == a)).map (·.2)
  | _ => none

mutual

/-- Mirror of `ExpressionEvaluator._eval_node` (evaluator.py lines 37-130).
The Python method is an `elif` chain of `isinstance` tests; because
`isinstance(node, ast.Call)` is tested at line 39, the second
`ast.Call` branch at line 116 (the one raising GuythonSecurityError) and
the second and third `ast.Attribute` branches are dead code, so each AST
constructor is governed by its FIRST branch, which is what each case below
embeds.  `variables` is `self.variables`; `self.functions` is always
SAFE_FUNCTIONS at every construction site in interpreter.py, embedded here
as `safeFunctionsEnv`. -/
def evalNode (vars : Vars) : GExpr → Except GuythonErr Val
  | .name id =>
    match lookupVar id vars with
    | some v => .ok v
    | none =>
      match lookupVar id safeFunctionsEnv with
      | some v => .ok v
      | none => .error (.runtimeError ("Undefined variable: " ++ id))
  | .intLit n => .ok (.int n)
  | .strLit s => .ok (.str s)
  | .boolLit b => .ok (.bool b)
  | .call fn args => do
    let fv ← evalNode vars fn
    let avs ← evalArgs vars args
    match fv with
    | .builtin bname =>
      match applyBuiltin bname avs with
      | .ok v => .ok v
      | .error e => .error (.runtimeError ("Error calling function: " ++ e.message))
    | _ => .error (.runtimeError ("Not callable: " ++ fv.pyStr))
  | .attrGet objE a => do
    let obj ← evalNode vars objE
    match attrLookup obj a with
    | some v => .ok v
    | none => .error (.runtimeError ("Attribute not found: " ++ a))
  | .binop op l r => do
    let lv ← evalNode vars l
    let rv ← evalNode vars r
    match op.opSymbol with
    | some sym => applySafeOp sym lv rv
    | none => .error (.runtimeError ("Unsupported operation: " ++ op.pyName))
  | .compareChain l rest => do
    let lv ← evalNode vars l
    let b ← evalChain vars lv true rest
    .ok (.bool b)
termination_by e => sizeOf e

/-- Left-to-right evaluation of call arguments
(`[self._eval_node(arg) for arg in node.args]`). -/
def evalArgs (vars : Vars) : List GExpr → Except GuythonErr (List Val)
  | [] => .ok []
  | a :: rest => do
    let v ← evalNode vars a
    let vs ← evalArgs vars rest
    .ok (v :: vs)
termination_by l => sizeOf l

/-- Mirror of the `ast.Compare` loop: every comparator is evaluated, the
pairwise operator is applied only while the running result is still true
(`result = result and op_func(left, right)` short-circuits), and `left`
always advances to the last comparator. -/
def evalChain (vars : Vars) (left : Val) (result : Bool) :
    List (COp × GExpr) → Except GuythonErr Bool
  | [] => .ok result
  | (op, ce) :: rest => do
    let right ← evalNode vars ce
    if result then
      match compareVals op left right with
      | .ok b => evalChain vars right b rest
      | .error e => .error e
    else
      evalChain vars right false rest
termination_by l => sizeOf l

end

/-- Mirror of `ExpressionEvaluator.evaluate` (evaluator.py lines 18-25):
the underscore-call rewrite and `ast.parse` are absorbed into taking the
parsed AST; the `except Exception` clause rewraps EVERY failure — including
a GuythonSecurityError, were one ever raised — as
`GuythonRuntimeError("Error evaluating expression: ...")`. -/
def evaluate (e : GExpr) (vars : Vars) : Except GuythonErr Val :=
  match evalNode vars e with
  | .ok v => .ok v
  | .error err => .error (.runtimeError ("Error evaluating expression: " ++ err.message))

/-! ## Interpreter state and constants (interpreter.py, constants.py) -/

/-- constants.py: MAX_LOOP_ITERATIONS = 10000. -/
def MAX_LOOP_ITERATIONS : Nat := 10000

/-- interpreter.py: self.goto_max_jumps = 1000. -/
def GOTO_MAX_JUMPS : Nat := 1000

/-- Reserved keywords rejected by `_validate_variable_name`. -/
def reservedKeywords : List String :=
  ["import", "print", "if", "while", "def", "goto", "eval"]

/-- The character test of the regex `[A-Za-z_][A-Za-z0-9_]*`
(`Char.isAlpha` / `Char.isAlphanum` are the ASCII ranges). -/
def isIdentStart (c : Char) : Bool := c.isAlpha || c == '_'

def isIdentChar (c : Char) : Bool := c.isAlphanum || c == '_'

/-- The regex match `re.match(r'^[A-Za-z_][A-Za-z0-9_]*$', name)`. -/
def matchesIdentRegex (name : String) : Bool :=
  match name.data with
  | [] => false
  | c :: rest => isIdentStart c && rest.all isIdentChar

/-- Mirror of `GuythonInterpreter._validate_variable_name` (interpreter.py
lines 72-78): the regex must match, and the name must be neither a
SAFE_FUNCTIONS key nor one of the reserved keywords. -/
def validateVariableName (name : String) : Bool :=
  matchesIdentRegex name
    && !(safeFunctionNames.contains name)
    && !(reservedKeywords.contains name)

/-- A loop frame of `self.loop_stack`: (conditionExpression, indentDepth,
capturedBody).  The condition string is represented by its parsed AST; body
lines are the captured (indent, code) pairs. -/
structure LoopFrame where
  cond : GExpr
  depth : Nat
  body : List (Nat × String)

/-- The stack-machine portion of the interpreter state: self.variables,
self.if_stack, self.else_stack, self.loop_stack.  Stack tops are list
heads. -/
structure InterpState where
  varEnv : Vars
  ifStack : List (Bool × Nat)
  elseStack : List (Bool × Nat)
  loopStack : List LoopFrame

/-! ## Block closure (`_close_blocks`, `execute_remaining_loops`)

In the source, executing a popped loop frame re-enters `run_line` for each
captured body line.  The net effect of `_execute_loop` on the variable
environment is abstracted here as a parameter
`exec : LoopFrame → Vars → Except GuythonErr Vars`; an error aborts the
remaining pops exactly as a raised exception does. -/

/-- The first loop of `_close_blocks`: pop if-frames while the top's depth
is ≥ the incoming indent; popped frames are simply discarded. -/
def closeIfs (indent : Nat) (ifs : List (Bool × Nat)) : List (Bool × Nat) :=
  ifs.dropWhile (fun f => decide (indent ≤ f.2))

/-- The second loop of `_close_blocks`: pop loop-frames while the top's
depth is ≥ the incoming indent, executing each popped frame. -/
def closeLoops (exec : LoopFrame → Vars → Except GuythonErr Vars)
    (indent : Nat) : List LoopFrame → Vars → Except GuythonErr (List LoopFrame × Vars)
  | [], v => .ok ([], v)
  | f :: rest, v =>
    if indent ≤ f.depth then
      match exec f v with
      | .ok v2 => closeLoops exec indent rest v2
      | .error e => .error e
    else .ok (f :: rest, v)

/-- Mirror of `GuythonInterpreter._close_blocks` (interpreter.py lines
1442-1452): if-frames popped and discarded first, then loop-frames popped
and executed. -/
def closeBlocksWith (exec : LoopFrame → Vars → Except GuythonErr Vars)
    (indent : Nat) (st : InterpState) : Except GuythonErr InterpState :=
  let ifs := closeIfs indent st.ifStack
  match closeLoops exec indent st.loopStack st.varEnv with
  | .ok (loops, v) => .ok { st with varEnv := v, ifStack := ifs, loopStack := loops }
  | .error e => .error e

/-- Mirror of `GuythonInterpreter.execute_remaining_loops` (interpreter.py
lines 1477-1481): pop every remaining loop frame (LIFO) and execute it. -/
def runRemaining (exec : LoopFrame → Vars → Except GuythonErr Vars) :
    List LoopFrame → Vars → Except GuythonErr Vars
  | [], v => .ok v
  | f :: rest, v =>
    match exec f v with
    | .ok v2 => runRemaining exec rest v2
    | .error e => .error e

def executeRemainingLoopsWith (exec : LoopFrame → Vars → Except GuythonErr Vars)
    (st : InterpState) : Except GuythonErr InterpState :=
  match runRemaining exec st.loopStack st.varEnv with
  | .ok v => .ok { st with varEnv := v, loopStack := [] }
  | .error e => .error e

/-- Lift a total loop-body executor into the Except-valued form used by
`closeBlocksWith`. -/
def okExec (g : LoopFrame → Vars → Vars) : LoopFrame → Vars → Except GuythonErr Vars :=
  fun f v => .ok (g f v)

/-! ## Loop execution (`_execute_loop`) -/

/-- The loop skeleton of `GuythonInterpreter._execute_loop` (interpreter.py
lines 1454-1475), with `runBody` abstracting one full sweep of the captured
body lines through `run_line` (run_line swallows non-goto Guython errors,
so a sweep is modelled as a total state transformer).  `k` is the number of
iterations still allowed, i.e. MAX_LOOP_ITERATIONS − iteration_count: the
source checks `iteration_count >= MAX_LOOP_ITERATIONS` after the condition
holds and before running the body, which is `k = 0` here.  The evaluator is
re-created from the current variables at every test, which `evaluate cond`
applied to the current environment captures. -/
def executeLoopAux (cond : GExpr) (runBody : Vars → Vars) :
    Vars → Nat → Vars × Option GuythonErr
  | v, k =>
    match evaluate cond v with
    | .error e => (v, some e)
    | .ok cv =>
      if cv.truthy then
        match k with
        | 0 => (v, some (.runtimeError ("Loop exceeded maximum iterations (" ++ toString MAX_LOOP_ITERATIONS ++ ")")))
        | k2 + 1 => executeLoopAux cond runBody (runBody v) k2
      else (v, none)

/-- Mirror of `_execute_loop`: iteration_count starts at 0. -/
def executeLoop (cond : GExpr) (runBody : Vars → Vars) (v : Vars) :
    Vars × Option GuythonErr :=
  executeLoopAux cond runBody v MAX_LOOP_ITERATIONS

/-! ## Goto (`_handle_goto` and the `run_program` driver) -/

/-- Mirror of `GuythonInterpreter._handle_goto` (interpreter.py lines
483-501): parse the target out of `goto N` / `gotoN` and raise the
GuythonGotoException signal; a malformed target is a syntax error.  The
returned value is the raised exception. -/
def handleGoto (code : String) : GuythonErr :=
  let lineStr :=
    if code.startsWith "goto " then (code.drop 5).trim
    else if code.startsWith "goto" then (code.drop 4).trim
    else ""
  if lineStr.isEmpty || !(lineStr.all Char.isDigit) then
    .syntaxError "Goto syntax error. Use: goto<line_number> or goto <line_number> (e.g., goto5 or goto 5)"
  else
    .gotoSignal (lineStr.toNat!)

/-- The `except GuythonGotoException` handler of `run_program`
(interpreter.py lines 228-239): validate the 1-based target against the
line count, then increment the jump counter and fail once it exceeds
GOTO_MAX_JUMPS; on success return the new counter and the new 0-based
cursor. -/
def gotoResume (numLines : Nat) (jumpCount : Nat) (target : Nat) :
    Except GuythonErr (Nat × Nat) :=
  if target < 1 || target > numLines then
    .error (.runtimeError ("Goto target line " ++ toString target ++
      " is out of range (1-" ++ toString numLines ++ ")"))
  else
    if jumpCount + 1 > GOTO_MAX_JUMPS then
      .error (.runtimeError ("Maximum goto jumps exceeded (" ++ toString GOTO_MAX_JUMPS ++ "). Possible infinite loop."))
    else
      .ok (jumpCount + 1, target - 1)

/-- A run of successive goto resumptions within one program run, threading
the jump counter (which `run_program` resets to 0 once per program). -/
def runJumps (numLines : Nat) (jumpCount : Nat) : List Nat → Except GuythonErr Nat
  | [] => .ok jumpCount
  | t :: ts =>
    match gotoResume numLines jumpCount t with
    | .ok (c, _) => runJumps numLines c ts
    | .error e => .error e

/-! ## if / else (`_handle_if`, `_handle_else`) -/

/-- Mirror of `GuythonInterpreter._handle_if` (interpreter.py lines
811-833), after the condition text has been extracted (a missing condition
is a syntax error at parse time and is not modelled): evaluate the
condition, push (truthiness, indent) onto the if stack and the complement
onto the else shadow stack; an evaluation failure is rewrapped and nothing
is pushed. -/
def handleIf (cond : GExpr) (indent : Nat) (st : InterpState) :
    Except GuythonErr InterpState :=
  match evaluate cond st.varEnv with
  | .ok cv =>
    .ok { st with
      ifStack := (cv.truthy, indent) :: st.ifStack,
      elseStack := (!cv.truthy, indent) :: st.elseStack }
  | .error e => .error (.runtimeError ("Error in if condition: " ++ e.message))

/-- Mirror of `GuythonInterpreter._handle_else` (interpreter.py lines
834-843): read the top of the else shadow stack (never popping it); an
else whose indent is ≤ the recorded if indent is rejected with a syntax
error; otherwise push the recorded complement activation at the else's own
indent onto the if stack. -/
def handleElse (indent : Nat) (st : InterpState) : Except GuythonErr InterpState :=
  match st.elseStack with
  | [] => .error (.syntaxError "Unexpected else without matching if")
  | (shouldRun, ifIndent) :: _ =>
    if indent ≤ ifIndent then
      .error (.syntaxError "Else block must be indented under its matching if")
    else
      .ok { st with ifStack := (shouldRun, indent) :: st.ifStack }

/-! ## Assignment (`_handle_assignment`) -/

/-- Mirror of `GuythonInterpreter._handle_assignment` (interpreter.py lines
1019-1037), after the line has been split on its first `=` and both sides
trimmed (the split itself carries no logic a claim depends on): validate
the target name, evaluate the right-hand side in the CURRENT (pre-
assignment) environment, then bind. -/
def handleAssignment (varName : String) (expr : GExpr) (vars : Vars) :
    Except GuythonErr Vars :=
  if !validateVariableName varName then
    .error (.syntaxError ("Invalid variable name: " ++ varName))
  else
    match evaluate expr vars with
    | .ok v => .ok (insertVar varName v vars)
    | .error e => .error (.runtimeError ("Error in assignment: " ++ e.message))

/-! ## Function call binder (`_handle_function_call`) -/

/-- The parameter-binding loop of `_handle_function_call` (interpreter.py
lines 933-942): each evaluated argument value is bound to its parameter
name in the current scope, in order. -/
def bindParams (params : List String) (argVals : List Val) (vars : Vars) : Vars :=
  (params.zip argVals).foldl (fun v pa => insertVar pa.1 pa.2 v) vars

/-- The `finally` block of `_handle_function_call` (interpreter.py lines
958-965): for each parameter name, restore its pre-call value when the
saved snapshot had one, and delete the binding otherwise. -/
def restoreParams (saved : Vars) (params : List String) (vars : Vars) : Vars :=
  params.foldl
    (fun v p =>
      match lookupVar p saved with
      | some pv => insertVar p pv v
      | none => eraseVar p v)
    vars

/-- Mirror of `GuythonInterpreter._handle_function_call` (interpreter.py
lines 887-965) from the point where the callee and its evaluated argument
values are known: check the arity, snapshot the environment
(`saved_vars = self.variables.copy()`), bind parameters, run the body
(abstracted as a total environment transformer, since `run_line` swallows
non-goto errors), and finally restore the parameter names. -/
def handleFunctionCall (funcName : String) (params : List String)
    (argVals : List Val) (runBody : Vars → Vars) (vars : Vars) :
    Except GuythonErr Vars :=
  if argVals.length != params.length then
    .error (.runtimeError ("Function " ++ funcName ++ " expects " ++
      toString params.length ++ " args, got " ++ toString argVals.length))
  else
    let saved := vars
    .ok (restoreParams saved params (runBody (bindParams params argVals vars)))

/-! ## Array access (`_handle_array_access`) -/

/-- The bracket-group loop of `_handle_array_access` (interpreter.py lines
128-151), with the index expressions already parsed out of the bracket
text: evaluate each index in the (unmodified) environment, require an
integer index, require the current value to be an array, and check the
bounds, reporting them as 0..len-1 in the error. -/
def arrayIndexLoop (vars : Vars) : Val → List GExpr → Except GuythonErr Val
  | cur, [] => .ok cur
  | cur, idxE :: rest =>
    match evaluate idxE vars with
    | .error e => .error e
    | .ok iv =>
      match iv with
      | .int i =>
        match cur with
        | .list xs =>
          if i < 0 || i ≥ (xs.length : Int) then
            .error (.runtimeError ("Array index " ++ toString i ++
              " out of bounds (0-" ++ toString ((xs.length : Int) - 1) ++ ")"))
          else
            arrayIndexLoop vars (xs.getD i.toNat (.int 0)) rest
        | _ => .error (.runtimeError ("Cannot index non-array value of type " ++ cur.typeName))
      | _ => .error (.runtimeError ("Array index must be integer, got " ++ iv.typeName))

/-- Mirror of `GuythonInterpreter._handle_array_access` (interpreter.py
lines 112-153): resolve the variable, then walk the bracket groups. -/
def handleArrayAccess (varName : String) (idxs : List GExpr) (vars : Vars) :
    Except GuythonErr Val :=
  match lookupVar varName vars with
  | none => .error (.runtimeError ("Variable " ++ varName ++ " not found"))
  | some v0 => arrayIndexLoop vars v0 idxs

/-- The array-access branch of `_process_command` (interpreter.py lines
395-404) never writes `self.variables`; the environment passes through the
step unchanged, and only the computed value is printed/retained. -/
def arrayAccessStep (varName : String) (idxs : List GExpr) (vars : Vars) :
    Except GuythonErr Val × Vars :=
  (handleArrayAccess varName idxs vars, vars)

/-! ## A small operation machine for stack-evolution invariants -/

/-- The statement forms that touch the control stacks, as dispatched by
`_process_command`: an if header, an else line, the pre-classification
block closure, and a variable assignment (representative of the statement
forms that mutate only `self.variables`). -/
inductive StackOp where
  | ifOp (cond : GExpr) (indent : Nat)
  | elseOp (indent : Nat)
  | closeOp (indent : Nat)
  | assignOp (name : String) (expr : GExpr)

/-- One dispatched operation.  A raised Guython error is caught at the
`run_line` boundary (interpreter.py lines 286-292) and leaves the state as
the handler left it; none of these handlers mutates state before raising,
so the error case keeps the state unchanged. -/
def stepOp (g : LoopFrame → Vars → Vars) (op : StackOp) (st : InterpState) :
    InterpState :=
  match op with
  | .ifOp c i =>
    match handleIf c i st with
    | .ok s => s
    | .error _ => st
  | .elseOp i =>
    match handleElse i st with
    | .ok s => s
    | .error _ => st
  | .closeOp i =>
    match closeBlocksWith (okExec g) i st with
    | .ok s => s
    | .error _ => st
  | .assignOp x e =>
    match handleAssignment x e st.varEnv with
    | .ok v => { st with varEnv := v }
    | .error _ => st

/-- A dispatched sequence of operations. -/
def runOps (g : LoopFrame → Vars → Vars) (ops : List StackOp) (st : InterpState) :
    InterpState :=
  ops.foldl (fun s op => stepOp g op s) st

/-! ## The statement classification cascade of `_process_command`

`_process_command` (interpreter.py lines 301-417) routes a line by an
ordered first-match prefix cascade.  The string primitives below are
defined over character lists so that concrete classifications reduce by
`decide`. -/

def listStartsWith : (pre l : List Char) → Bool
  | [], _ => true
  | _ :: _, [] => false
  | a :: pre2, b :: l2 => a == b && listStartsWith pre2 l2

/-- Python `code.startswith(pre)`. -/
def strStartsWith (s pre : String) : Bool := listStartsWith pre.data s.data

/-- Python `code.endswith(suf)`. -/
def strEndsWith (s suf : String) : Bool :=
  listStartsWith suf.data.reverse s.data.reverse

def listContainsSub (sub : List Char) : List Char → Bool
  | [] => sub.isEmpty
  | c :: rest => listStartsWith sub (c :: rest) || listContainsSub sub rest

/-- Python `sub in code` for a substring. -/
def containsSubstr (s sub : String) : Bool := listContainsSub sub.data s.data

/-- Python `code.count(c)`. -/
def countChar (s : String) (c : Char) : Nat := s.data.count c

/-- Python `c in code` for a single character. -/
def strContainsChar (s : String) (c : Char) : Bool := s.data.contains c

/-- The single-quote and double-quote characters, spelled by code point. -/
def squoteStr : String := String.mk [Char.ofNat 39]

def dquoteStr : String := String.mk [Char.ofNat 34]

/-- Python `s.strip()` (whitespace at both ends). -/
def strTrim (s : String) : String :=
  String.mk (((s.data.dropWhile Char.isWhitespace).reverse.dropWhile
    Char.isWhitespace).reverse)

/-- Python `code.split('=', 1)`: split at the FIRST `=`; `none` when the
line has no `=` (in `_handle_assignment` that is the
"Invalid assignment syntax" error). -/
def splitFirstEq : List Char → Option (List Char × List Char)
  | [] => none
  | c :: rest =>
    if c == '=' then some ([], rest)
    else
      match splitFirstEq rest with
      | some (l, r) => some (c :: l, r)
      | none => none

/-- The split-and-strip prologue of `_handle_assignment` (interpreter.py
lines 1021-1026): left part and right part of the first `=`, both
stripped. -/
def splitAssignment (code : String) : Option (String × String) :=
  match splitFirstEq code.data with
  | some (l, r) => some (strTrim (String.mk l), strTrim (String.mk r))
  | none => none

/-- One alias substitution (interpreter.py lines 308-310): when the alias
followed by a space prefixes the line, `code.replace(alias, target, 1)`
replaces that prefix (the first occurrence is the prefix itself). -/
def applyAlias (code : String) (al : String × String) : String :=
  if strStartsWith code (al.1 ++ " ") then al.2 ++ String.mk (code.data.drop al.1.data.length)
  else code

def applyAliases (aliases : List (String × String)) (code : String) : String :=
  aliases.foldl applyAlias code

/-- The command-prefix list of the function-call guard (interpreter.py
line 368). -/
def commandPrefixes : List String :=
  ["def", "while", "if", "print", "input", "alias", "else", "exit",
   "gpd", "goto", "guython", "read", "write", "import"]

/-- The branch of `_process_command` a line is routed to. -/
inductive CommandKind where
  | evalCmd | inputPrompt | inputAssign | aliasCmd | elseCmd | exitCmd
  | gpdCmd | defCmd | whileCmd | ifCmd | loopBodyAppend | skipInactiveIf
  | gotoCmd | guythonCmd | funcCall | printInput | assignCmd | printCmd
  | easterEgg | verCmd | arrayAccess | exprEval
deriving DecidableEq, Repr

/-- Mirror of the ordered first-match classification of `_process_command`
(interpreter.py lines 301-417), after alias application: each test below
transcribes the corresponding `if`/`elif` guard in order.  The
loop-body-append and inactive-if-skip branches consult the stack tops
exactly as lines 352-358 do. -/
def classifyCommand (aliases : List (String × String)) (code0 : String)
    (st : InterpState) (indent : Nat) : CommandKind :=
  let code := applyAliases aliases code0
  if strStartsWith code "eval " then .evalCmd
  else if strStartsWith code ("input" ++ dquoteStr) && strEndsWith code dquoteStr then .inputPrompt
  else if strStartsWith code ("input" ++ squoteStr) && strEndsWith code squoteStr then .inputPrompt
  else if containsSubstr code ("=input" ++ dquoteStr) && countChar code (Char.ofNat 34) == 2 then .inputAssign
  else if containsSubstr code ("=input " ++ squoteStr) && countChar code (Char.ofNat 39) == 2 then .inputAssign
  else if strStartsWith code "alias " then .aliasCmd
  else if strStartsWith code "else" then .elseCmd
  else if strStartsWith code "exit_" then .exitCmd
  else if strStartsWith code "gpd " then .gpdCmd
  else if strStartsWith code "def" then .defCmd
  else if strStartsWith code "while" then .whileCmd
  else if strStartsWith code "if" then .ifCmd
  else if (match st.loopStack with
    | f :: _ => decide (f.depth < indent)
    | [] => false) then .loopBodyAppend
  else if (match st.ifStack with
    | top :: _ => !top.1 && decide (top.2 < indent)
    | [] => false) then .skipInactiveIf
  else if strStartsWith code "goto" then .gotoCmd
  else if strStartsWith code "guython" then .guythonCmd
  else if (containsSubstr code "_ " || strEndsWith code "_")
      && !(commandPrefixes.any (fun c => strStartsWith code c)) then .funcCall
  else if strStartsWith code "printinput" || strStartsWith code "print input" then .printInput
  else if strContainsChar code '=' && !(strStartsWith code "print") && code != "5+5=4" then .assignCmd
  else if strStartsWith code "print" then .printCmd
  else if code == "5+5=4" then .easterEgg
  else if code == "9+10" then .easterEgg
  else if code == "ver" && !(strContainsChar code '=') then .verCmd
  else if strContainsChar code '[' && strContainsChar code ']' && !(strContainsChar code '=') then .arrayAccess
  else .exprEval

/-- The condition-text extraction of `_handle_if` (interpreter.py lines
815-820): `if condition` or `ifcondition`. -/
def extractIfCondition (code : String) : String :=
  if strStartsWith code "if " then strTrim (String.mk (code.data.drop 3))
  else if strStartsWith code "if" then strTrim (String.mk (code.data.drop 2))
  else ""

/-- The assignment branch of `_process_command` as it executes: the
(alias-applied) line is handed to `_handle_assignment`, which splits it on
the first `=` and binds the left name to the evaluated right side.  `expr`
is the parsed form of the right-hand text (the parse step, `ast.parse`,
sits outside the embedding as everywhere in this development). -/
def runAssignmentBranch (code : String) (expr : GExpr) (vars : Vars) :
    Except GuythonErr Vars :=
  match splitAssignment code with
  | none => .error (.syntaxError "Invalid assignment syntax")
  | some (x, _) => handleAssignment x expr vars

/-! # Environment lemmas -/

theorem lookupVar_insertVar_self (x : String) (val : Val) (v : Vars) :
    lookupVar x (insertVar x val v) = some val := by
  simp [lookupVar, insertVar]

theorem lookupVar_filter_ne (x p : String) (v : Vars) (h : x ≠ p) :
    lookupVar x (v.filter (fun q => q.1 != p)) = lookupVar x v := by
  induction v with
  | nil => rfl
  | cons q rest ih =>
    rw [List.filter_cons]
    by_cases hq : q.1 = p
    · have h1 : (q.1 != p) = false := by simp [hq]
      have h2 : (q.1 == x) = false := by
        simp only [hq]
        exact beq_eq_false_iff_ne.mpr (Ne.symm h)
      rw [h1]
      simp only [Bool.false_eq_true, if_false, lookupVar, h2]
      exact ih
    · have h1 : (q.1 != p) = true := by simp [hq]
      rw [h1]
      simp only [if_true, lookupVar]
      by_cases hqx : (q.1 == x) = true
      · rw [hqx]
        simp only [if_true]
      · rw [Bool.eq_false_iff.mpr hqx]
        simp only [Bool.false_eq_true, if_false]
        exact ih

theorem lookupVar_insertVar_ne (x p : String) (val : Val) (v : Vars) (h : x ≠ p) :
    lookupVar x (insertVar p val v) = lookupVar x v := by
  have hx : (p == x) = false := beq_eq_false_iff_ne.mpr (Ne.symm h)
  simp only [insertVar, lookupVar, hx, Bool.false_eq_true, if_false]
  exact lookupVar_filter_ne x p v h

theorem lookupVar_eraseVar_self (x : String) (v : Vars) :
    lookupVar x (eraseVar x v) = none := by
  induction v with
  | nil => rfl
  | cons q rest ih =>
    rw [eraseVar, List.filter_cons]
    by_cases hq : q.1 = x
    · have h1 : (q.1 != x) = false := by simp [hq]
      rw [h1]
      simp only [Bool.false_eq_true, if_false]
      exact ih
    · have h1 : (q.1 != x) = true := by simp [hq]
      have h2 : (q.1 == x) = false := beq_eq_false_iff_ne.mpr hq
      rw [h1]
      simp only [if_true, lookupVar, h2, Bool.false_eq_true, if_false]
      exact ih

theorem lookupVar_eraseVar_ne (x p : String) (v : Vars) (h : x ≠ p) :
    lookupVar x (eraseVar p v) = lookupVar x v :=
  lookupVar_filter_ne x p v h

/-! # C1: error classes raised by the evaluator -/

/-- C1.  The claim says a call to a function name outside the allow-list
raises SecurityError.  On the code it does not: for the expression
`foo(1)` with an empty variable environment, `_eval_node`'s first
`ast.Call` branch evaluates `node.func`, whose Name lookup raises
GuythonRuntimeError("Undefined variable: foo"), and `evaluate` rewraps it;
the GuythonSecurityError branch at evaluator.py line 116 is dead code
(line 39 already matched `ast.Call`), and `evaluate`'s blanket
`except Exception` would rewrap even a SecurityError as a RuntimeError, so
no evaluation can surface a security error at all.  The claim's second
half is accurate: attribute access on an unbound identifier (`foo.bar`)
raises a RuntimeError. -/
theorem c1_unknown_call_raises_runtime_never_security :
    evaluate (.call (.name "foo") [.intLit 1]) [] =
      .error (.runtimeError "Error evaluating expression: Undefined variable: foo") ∧
    evaluate (.attrGet (.name "foo") "bar") [] =
      .error (.runtimeError "Error evaluating expression: Undefined variable: foo") ∧
    ∀ (e : GExpr) (vars : Vars) (m : String),
      evaluate e vars ≠ .error (.securityError m) := by
  refine ⟨?_, ?_, ?_⟩
  · simp [evaluate, evalNode, evalArgs, evalChain, lookupVar, safeFunctionsEnv,
      GuythonErr.message, bind, Except.bind]
  · simp [evaluate, evalNode, lookupVar, safeFunctionsEnv,
      GuythonErr.message, bind, Except.bind]
  · intro e vars m h
    rw [evaluate] at h
    cases hev : evalNode vars e <;> rw [hev] at h <;> simp at h

/-! # C6: the two exponentiation spellings -/

/-- C6.  The claim says `a ^ b` and `a ** b` are interchangeable
exponentiation.  On the code they are not: Python parses `^` as a
`BinOp BitXor` node, the live `evaluate` path never rewrites `^` to `**`
(the rewrite sits in `_evaluate_ast`, which no code calls), and the BinOp
`op_map` has no BitXor entry, so `2^3` raises
GuythonRuntimeError("Unsupported operation: BitXor") while `2**3`
evaluates to 8.  The SAFE_OPERATIONS table itself maps `^` to
`operator.pow` ("Guython uses ^ for power"), which the evaluator never
consults for BitXor. -/
theorem c6_caret_rejected_power_ok :
    evaluate (.binop .bitXor (.intLit 2) (.intLit 3)) [] =
      .error (.runtimeError "Error evaluating expression: Unsupported operation: BitXor") ∧
    evaluate (.binop .pow (.intLit 2) (.intLit 3)) [] = .ok (.int 8) ∧
    (∀ (a b : Int) (vars : Vars),
      evaluate (.binop .bitXor (.intLit a) (.intLit b)) vars =
        .error (.runtimeError "Error evaluating expression: Unsupported operation: BitXor")) ∧
    (∀ (a : Int) (n : Nat) (vars : Vars),
      evaluate (.binop .pow (.intLit a) (.intLit (n : Int))) vars = .ok (.int (a ^ n))) ∧
    applySafeOp "^" (.int 2) (.int 3) = .ok (.int 8) := by
  have hx : ∀ (a b : Int) (vars : Vars),
      evaluate (.binop .bitXor (.intLit a) (.intLit b)) vars =
        .error (.runtimeError "Error evaluating expression: Unsupported operation: BitXor") := by
    intro a b vars
    simp [evaluate, evalNode, BOp.opSymbol, BOp.pyName, GuythonErr.message,
      bind, Except.bind]
  have hp : ∀ (a : Int) (n : Nat) (vars : Vars),
      evaluate (.binop .pow (.intLit a) (.intLit (n : Int))) vars = .ok (.int (a ^ n)) := by
    intro a n vars
    have h0 : (0 : Int) ≤ (n : Int) := Int.natCast_nonneg n
    simp [evaluate, evalNode, BOp.opSymbol, applySafeOp, Val.asIntNum, bind, Except.bind, h0]
  exact ⟨hx 2 3 [], by simpa using hp 2 3 [], hx, hp, by simp [applySafeOp, Val.asIntNum]⟩

/-! # C5: else placement relative to its if -/

/-- C5 counterexample.  The claim says an `else` at the SAME indent depth
as its matching `if` is accepted and pushes the inverted activation.  On
the code, `_handle_else` raises GuythonSyntaxError whenever the else's
indent is ≤ the recorded if indent: after `if` at depth 0, an `else` at
depth 0 is rejected, and no frame is pushed. -/
theorem c5_else_equal_depth_rejected :
    handleIf (.boolLit true) 0 ⟨[], [], [], []⟩ =
      .ok ⟨[], [(true, 0)], [(false, 0)], []⟩ ∧
    handleElse 0 ⟨[], [(true, 0)], [(false, 0)], []⟩ =
      .error (.syntaxError "Else block must be indented under its matching if") := by
  constructor
  · simp [handleIf, evaluate, evalNode, Val.truthy]
  · simp [handleElse]

/-- C5 amended.  An `else` line must be strictly deeper indented than its
matching `if`; such an else pushes a conditional frame carrying the
complement of the if's branchTaken at the else's own indent, while an else
at equal (or shallower) depth is rejected with a syntax error. -/
theorem c5_else_requires_deeper_indent
    (cond : GExpr) (ifIndent elseIndent : Nat) (st : InterpState) (cv : Val)
    (hev : evaluate cond st.varEnv = .ok cv) :
    ∃ st1, handleIf cond ifIndent st = .ok st1 ∧
      st1.elseStack = (!cv.truthy, ifIndent) :: st.elseStack ∧
      (ifIndent < elseIndent →
        handleElse elseIndent st1 =
          .ok { st1 with ifStack := (!cv.truthy, elseIndent) :: st1.ifStack }) ∧
      (elseIndent ≤ ifIndent →
        handleElse elseIndent st1 =
          .error (.syntaxError "Else block must be indented under its matching if")) := by
  refine ⟨{ st with
      ifStack := (cv.truthy, ifIndent) :: st.ifStack,
      elseStack := (!cv.truthy, ifIndent) :: st.elseStack }, ?_, rfl, ?_, ?_⟩
  · rw [handleIf, hev]
  · intro hlt
    simp only [handleElse]
    rw [if_neg (by omega)]
  · intro hle
    simp only [handleElse]
    rw [if_pos hle]

/-- C5 witness: a concrete run of the amended theorem, with the else one
level deeper than its if. -/
theorem c5_else_requires_deeper_indent_witness :
    evaluate (.boolLit false) ([] : Vars) = .ok (.bool false) ∧
    (∃ st1, handleIf (.boolLit false) 0 ⟨[], [], [], []⟩ = .ok st1 ∧
      st1.elseStack = (!(Val.bool false).truthy, 0) :: [] ∧
      ((0 : Nat) < 1 →
        handleElse 1 st1 =
          .ok { st1 with ifStack := (!(Val.bool false).truthy, 1) :: st1.ifStack }) ∧
      ((1 : Nat) ≤ 0 →
        handleElse 1 st1 =
          .error (.syntaxError "Else block must be indented under its matching if"))) :=
  ⟨by simp [evaluate, evalNode],
   c5_else_requires_deeper_indent (.boolLit false) 0 1 ⟨[], [], [], []⟩ (.bool false)
     (by simp [evaluate, evalNode])⟩

/-! # C8: assignment followed by lookup -/

/-- C8 counterexample.  The claim quantifies over EVERY identifier
matching the naming rule that is neither reserved nor allow-listed, but
`_process_command` classifies by prefix BEFORE the assignment test, so a
keyword-prefixed name never reaches `_handle_assignment`: the line
`iffy=1` matches `code.startswith('if')` and is routed to `_handle_if`
(whose extracted condition text is the garbage `fy=1`, and which never
writes the variable environment — see `handleIf_varEnv`); the line
`printx=2` is excluded from the assignment branch by its
`not code.startswith('print')` guard and is routed to `_handle_print`.
Both `iffy` and `printx` satisfy every side condition the claim states,
yet executing the line binds nothing. -/
theorem c8_dispatcher_misroutes_keyword_prefixed :
    validateVariableName "iffy" = true ∧
    classifyCommand [] "iffy=1" ⟨[], [], [], []⟩ 0 = .ifCmd ∧
    ¬ classifyCommand [] "iffy=1" ⟨[], [], [], []⟩ 0 = .assignCmd ∧
    extractIfCondition "iffy=1" = "fy=1" ∧
    validateVariableName "printx" = true ∧
    classifyCommand [] "printx=2" ⟨[], [], [], []⟩ 0 = .printCmd ∧
    ¬ classifyCommand [] "printx=2" ⟨[], [], [], []⟩ 0 = .assignCmd := by
  decide

/-- The if handler can never create a variable binding: a successful
`_handle_if` pushes stack frames only and leaves `self.variables`
untouched (and on error nothing is written either). -/
theorem handleIf_varEnv (cond : GExpr) (i : Nat) (st s : InterpState)
    (h : handleIf cond i st = .ok s) : s.varEnv = st.varEnv := by
  rw [handleIf] at h
  cases hev : evaluate cond st.varEnv with
  | ok cv =>
    rw [hev] at h
    cases h
    rfl
  | error e =>
    rw [hev] at h
    cases h

/-- C8 amended.  For every LINE that the dispatcher cascade actually
classifies as an assignment (which excludes, among others, identifiers
beginning with a command prefix such as `if`, `while` or `print`), whose
left part of the first `=` strips to an identifier x matching
`[A-Za-z_][A-Za-z0-9_]*` that is neither a reserved keyword nor an
allow-listed builtin name, executing the assignment branch binds x to the
value of the right-hand expression evaluated in the pre-assignment
environment, and subsequently evaluating the expression `x` returns
exactly that value.  `expr` is the parsed form of the right-hand text. -/
theorem c8_assignment_binds (aliases : List (String × String)) (code : String)
    (st : InterpState) (indent : Nat) (x exprText : String) (expr : GExpr) (v : Val)
    (_hroute : classifyCommand aliases code st indent = .assignCmd)
    (hsplit : splitAssignment (applyAliases aliases code) = some (x, exprText))
    (hreg : matchesIdentRegex x = true)
    (hsafe : x ∉ safeFunctionNames) (hres : x ∉ reservedKeywords)
    (hev : evaluate expr st.varEnv = .ok v) :
    runAssignmentBranch (applyAliases aliases code) expr st.varEnv =
      .ok (insertVar x v st.varEnv) ∧
    evaluate (.name x) (insertVar x v st.varEnv) = .ok v := by
  have hval : validateVariableName x = true := by
    simp only [validateVariableName, hreg, Bool.true_and, Bool.and_eq_true,
      Bool.not_eq_true', List.contains, List.elem_eq_mem, decide_eq_false_iff_not]
    exact ⟨hsafe, hres⟩
  constructor
  · rw [runAssignmentBranch, hsplit]
    simp [handleAssignment, hval, hev]
  · simp [evaluate, evalNode, lookupVar_insertVar_self]

/-- C8 witness: the line `x=x+1` is classified as an assignment, splits
into `x` and `x+1`, and with `x` bound to 1 the assignment branch rebinds
`x` to 2, which evaluating `x` afterwards returns. -/
theorem c8_assignment_binds_witness :
    classifyCommand [] "x=x+1" ⟨[("x", Val.int 1)], [], [], []⟩ 0 = .assignCmd ∧
    splitAssignment (applyAliases [] "x=x+1") = some ("x", "x+1") ∧
    matchesIdentRegex "x" = true ∧
    "x" ∉ safeFunctionNames ∧
    "x" ∉ reservedKeywords ∧
    evaluate (.binop .add (.name "x") (.intLit 1)) [("x", Val.int 1)] = .ok (.int 2) ∧
    runAssignmentBranch (applyAliases [] "x=x+1")
        (.binop .add (.name "x") (.intLit 1)) [("x", Val.int 1)] =
      .ok (insertVar "x" (.int 2) [("x", Val.int 1)]) ∧
    evaluate (.name "x") (insertVar "x" (.int 2) [("x", Val.int 1)]) = .ok (.int 2) := by
  have hev : evaluate (.binop .add (.name "x") (.intLit 1)) [("x", Val.int 1)] = .ok (.int 2) := by
    simp [evaluate, evalNode, applySafeOp, Val.asIntNum, lookupVar, BOp.opSymbol,
      bind, Except.bind]
  have h := c8_assignment_binds [] "x=x+1" ⟨[("x", Val.int 1)], [], [], []⟩ 0
    "x" "x+1" (.binop .add (.name "x") (.intLit 1)) (.int 2)
    (by decide) (by decide) (by decide) (by decide) (by decide) hev
  exact ⟨by decide, by decide, by decide, by decide, by decide, hev, h.1, h.2⟩

/-! # C9: out-of-bounds array access -/

/-- C9.  An array access whose integer index is out of bounds fails with a
RuntimeError reporting the valid bounds 0..n-1, and the environment passes
through the access step unchanged. -/
theorem c9_array_index_oob (varName : String) (idxE : GExpr) (vars : Vars)
    (xs : List Val) (i : Int)
    (hvar : lookupVar varName vars = some (.list xs))
    (hidx : evaluate idxE vars = .ok (.int i))
    (hoob : i < 0 ∨ (xs.length : Int) ≤ i) :
    arrayAccessStep varName [idxE] vars =
      (.error (.runtimeError ("Array index " ++ toString i ++ " out of bounds (0-" ++
        toString ((xs.length : Int) - 1) ++ ")")), vars) := by
  have hcond : (decide (i < 0) || decide (i ≥ (xs.length : Int))) = true := by
    rcases hoob with h | h
    · simp [h]
    · simp only [Bool.or_eq_true, decide_eq_true_eq]
      right
      omega
  rw [arrayAccessStep, handleArrayAccess, hvar]
  simp [arrayIndexLoop, hidx, hcond]

/-- C9 witness: `arr[5]` on the 3-element array `[1,2,3]` reports bounds
0-2 and leaves the environment untouched. -/
theorem c9_array_index_oob_witness :
    lookupVar "arr" [("arr", Val.list [.int 1, .int 2, .int 3])] =
      some (.list [.int 1, .int 2, .int 3]) ∧
    evaluate (.intLit 5) [("arr", Val.list [.int 1, .int 2, .int 3])] = .ok (.int 5) ∧
    ((5 : Int) < 0 ∨ (([Val.int 1, .int 2, .int 3].length : Int) ≤ 5)) ∧
    arrayAccessStep "arr" [.intLit 5] [("arr", Val.list [.int 1, .int 2, .int 3])] =
      (.error (.runtimeError "Array index 5 out of bounds (0-2)"),
       [("arr", Val.list [.int 1, .int 2, .int 3])]) := by
  have hvar : lookupVar "arr" [("arr", Val.list [.int 1, .int 2, .int 3])] =
      some (.list [.int 1, .int 2, .int 3]) := by simp [lookupVar]
  have hidx : evaluate (.intLit 5) [("arr", Val.list [.int 1, .int 2, .int 3])] =
      .ok (.int 5) := by simp [evaluate, evalNode]
  have hoob : (5 : Int) < 0 ∨ (([Val.int 1, .int 2, .int 3].length : Int) ≤ 5) := by
    right
    simp
  have h := c9_array_index_oob "arr" (.intLit 5)
    [("arr", Val.list [.int 1, .int 2, .int 3])] [.int 1, .int 2, .int 3] 5 hvar hidx hoob
  exact ⟨hvar, hidx, hoob, by simpa using h⟩

/-! # C7: parameter save/restore around function calls -/

theorem restoreParams_lookup (params : List String) (saved vars : Vars) (x : String) :
    lookupVar x (restoreParams saved params vars) =
      if x ∈ params then lookupVar x saved else lookupVar x vars := by
  induction params generalizing vars with
  | nil => simp [restoreParams]
  | cons p ps ih =>
    have hstep : restoreParams saved (p :: ps) vars =
        restoreParams saved ps
          (match lookupVar p saved with
            | some pv => insertVar p pv vars
            | none => eraseVar p vars) := rfl
    rw [hstep, ih]
    by_cases hx : x ∈ ps
    · simp [hx, List.mem_cons]
    · by_cases hxp : x = p
      · subst hxp
        simp only [hx, if_false, List.mem_cons, true_or, if_true]
        cases hs : lookupVar x saved with
        | some pv => simp [lookupVar_insertVar_self]
        | none => simp [lookupVar_eraseVar_self, hs]
      · have : ¬(x ∈ p :: ps) := by
          simp [List.mem_cons, hxp, hx]
        simp only [hx, if_false, this]
        cases hs : lookupVar p saved with
        | some pv => rw [lookupVar_insertVar_ne _ _ _ _ hxp]
        | none => rw [lookupVar_eraseVar_ne _ _ _ hxp]

/-- C7.  For a call whose arity check passes, the call returns normally;
afterwards every parameter name is bound to its pre-call value (absent if
it was absent, since the restore loop deletes it), while every
non-parameter name keeps exactly the value the body execution left it. -/
theorem c7_param_restore (funcName : String) (params : List String)
    (argVals : List Val) (runBody : Vars → Vars) (vars : Vars)
    (hlen : argVals.length = params.length) :
    handleFunctionCall funcName params argVals runBody vars =
      .ok (restoreParams vars params (runBody (bindParams params argVals vars))) ∧
    (∀ x, x ∈ params →
      lookupVar x (restoreParams vars params (runBody (bindParams params argVals vars))) =
        lookupVar x vars) ∧
    (∀ x, x ∉ params →
      lookupVar x (restoreParams vars params (runBody (bindParams params argVals vars))) =
        lookupVar x (runBody (bindParams params argVals vars))) := by
  refine ⟨?_, ?_, ?_⟩
  · simp [handleFunctionCall, hlen]
  · intro x hx
    rw [restoreParams_lookup]
    simp [hx]
  · intro x hx
    rw [restoreParams_lookup]
    simp [hx]

/-- C7 witness: calling a one-parameter function that also writes a global
`g`: the parameter `a` is restored to its pre-call value 7, while the
global mutation to `g` survives the call. -/
theorem c7_param_restore_witness :
    ([Val.int 2] : List Val).length = (["a"] : List String).length ∧
    handleFunctionCall "f" ["a"] [Val.int 2] (fun w => insertVar "g" (.int 9) w)
        [("a", Val.int 7)] =
      .ok (restoreParams [("a", Val.int 7)] ["a"]
        ((fun w => insertVar "g" (.int 9) w) (bindParams ["a"] [Val.int 2] [("a", Val.int 7)]))) ∧
    lookupVar "a" (restoreParams [("a", Val.int 7)] ["a"]
        ((fun w => insertVar "g" (.int 9) w) (bindParams ["a"] [Val.int 2] [("a", Val.int 7)]))) =
      lookupVar "a" [("a", Val.int 7)] ∧
    lookupVar "g" (restoreParams [("a", Val.int 7)] ["a"]
        ((fun w => insertVar "g" (.int 9) w) (bindParams ["a"] [Val.int 2] [("a", Val.int 7)]))) =
      lookupVar "g" ((fun w => insertVar "g" (.int 9) w) (bindParams ["a"] [Val.int 2] [("a", Val.int 7)])) := by
  have h := c7_param_restore "f" ["a"] [Val.int 2] (fun w => insertVar "g" (.int 9) w)
    [("a", Val.int 7)] rfl
  exact ⟨rfl, h.1, h.2.1 "a" (by decide), h.2.2 "g" (by decide)⟩

/-! # C3: the loop iteration ceiling -/

theorem executeLoopAux_eq_error (cond : GExpr) (runBody : Vars → Vars)
    (v : Vars) (k : Nat) (e : GuythonErr) (he : evaluate cond v = .error e) :
    executeLoopAux cond runBody v k = (v, some e) := by
  cases k with
  | zero => rw [executeLoopAux, he]
  | succ k2 => rw [executeLoopAux, he]

theorem executeLoopAux_eq_stop (cond : GExpr) (runBody : Vars → Vars)
    (v : Vars) (k : Nat) (cv : Val) (he : evaluate cond v = .ok cv)
    (ht : cv.truthy = false) :
    executeLoopAux cond runBody v k = (v, none) := by
  cases k with
  | zero => rw [executeLoopAux, he]; simp [ht]
  | succ k2 => rw [executeLoopAux, he]; simp [ht]

theorem executeLoopAux_eq_ceiling (cond : GExpr) (runBody : Vars → Vars)
    (v : Vars) (cv : Val) (he : evaluate cond v = .ok cv)
    (ht : cv.truthy = true) :
    executeLoopAux cond runBody v 0 =
      (v, some (.runtimeError "Loop exceeded maximum iterations (10000)")) := by
  rw [executeLoopAux, he]
  simp [ht]
  rfl

theorem executeLoopAux_eq_step (cond : GExpr) (runBody : Vars → Vars)
    (v : Vars) (k : Nat) (cv : Val) (he : evaluate cond v = .ok cv)
    (ht : cv.truthy = true) :
    executeLoopAux cond runBody v (k + 1) =
      executeLoopAux cond runBody (runBody v) k := by
  rw [executeLoopAux, he]
  simp [ht]

theorem executeLoopAux_always_true (cond : GExpr) (runBody : Vars → Vars)
    (h : ∀ w, ∃ cv, evaluate cond w = .ok cv ∧ cv.truthy = true) :
    ∀ (k : Nat) (v : Vars), executeLoopAux cond runBody v k =
      (runBody^[k] v,
       some (.runtimeError "Loop exceeded maximum iterations (10000)")) := by
  intro k
  induction k with
  | zero =>
    intro v
    obtain ⟨cv, he, ht⟩ := h v
    rw [executeLoopAux_eq_ceiling cond runBody v cv he ht]
    rfl
  | succ k ih =>
    intro v
    obtain ⟨cv, he, ht⟩ := h v
    rw [executeLoopAux_eq_step cond runBody v k cv he ht, ih (runBody v),
      Function.iterate_succ_apply]

theorem executeLoopAux_none_cond_false (cond : GExpr) (runBody : Vars → Vars) :
    ∀ (k : Nat) (v : Vars), (executeLoopAux cond runBody v k).2 = none →
      ∃ cv, evaluate cond (executeLoopAux cond runBody v k).1 = .ok cv ∧
        cv.truthy = false := by
  intro k
  induction k with
  | zero =>
    intro v h0
    cases he : evaluate cond v with
    | error e =>
      rw [executeLoopAux_eq_error cond runBody v 0 e he] at h0
      simp at h0
    | ok cv =>
      cases ht : cv.truthy with
      | true =>
        rw [executeLoopAux_eq_ceiling cond runBody v cv he ht] at h0
        simp at h0
      | false =>
        rw [executeLoopAux_eq_stop cond runBody v 0 cv he ht] at h0 ⊢
        exact ⟨cv, he, ht⟩
  | succ k ih =>
    intro v h0
    cases he : evaluate cond v with
    | error e =>
      rw [executeLoopAux_eq_error cond runBody v (k + 1) e he] at h0
      simp at h0
    | ok cv =>
      cases ht : cv.truthy with
      | true =>
        rw [executeLoopAux_eq_step cond runBody v k cv he ht] at h0 ⊢
        exact ih (runBody v) h0
      | false =>
        rw [executeLoopAux_eq_stop cond runBody v (k + 1) cv he ht] at h0 ⊢
        exact ⟨cv, he, ht⟩

/-- C3.  If the loop condition evaluates truthy against every environment
the loop can present to it, `_execute_loop` runs the captured body exactly
MAX_LOOP_ITERATIONS = 10000 times and then raises the ceiling
RuntimeError; and whenever loop execution finishes without an error, the
condition evaluated to a falsy value at the final environment, so loop
execution always ends by condition-falsification or by an error. -/
theorem c3_loop_iteration_ceiling :
    (∀ (cond : GExpr) (runBody : Vars → Vars) (v : Vars),
      (∀ w, ∃ cv, evaluate cond w = .ok cv ∧ cv.truthy = true) →
      executeLoop cond runBody v =
        (runBody^[MAX_LOOP_ITERATIONS] v,
         some (.runtimeError "Loop exceeded maximum iterations (10000)"))) ∧
    (∀ (cond : GExpr) (runBody : Vars → Vars) (v : Vars),
      (executeLoop cond runBody v).2 = none →
      ∃ cv, evaluate cond (executeLoop cond runBody v).1 = .ok cv ∧
        cv.truthy = false) := by
  constructor
  · intro cond runBody v h
    exact executeLoopAux_always_true cond runBody h MAX_LOOP_ITERATIONS v
  · intro cond runBody v
    exact executeLoopAux_none_cond_false cond runBody MAX_LOOP_ITERATIONS v

/-- C3 witness: the always-true condition `1` drives the body for exactly
10000 iterations before the ceiling error. -/
theorem c3_loop_iteration_ceiling_witness :
    (∀ w : Vars, ∃ cv, evaluate (.intLit 1) w = .ok cv ∧ cv.truthy = true) ∧
    executeLoop (.intLit 1) id [] =
      (id^[MAX_LOOP_ITERATIONS] ([] : Vars),
       some (.runtimeError "Loop exceeded maximum iterations (10000)")) := by
  have h : ∀ w : Vars, ∃ cv, evaluate (.intLit 1) w = .ok cv ∧ cv.truthy = true :=
    fun w => ⟨.int 1, by simp [evaluate, evalNode], by simp [Val.truthy]⟩
  exact ⟨h, c3_loop_iteration_ceiling.1 (.intLit 1) id [] h⟩

/-! # C4: goto validation and the jump ceiling -/

theorem gotoResume_in_range (n c t : Nat) (h1 : 1 ≤ t) (h2 : t ≤ n)
    (hc : c + 1 ≤ GOTO_MAX_JUMPS) :
    gotoResume n c t = .ok (c + 1, t - 1) := by
  have hA : ¬((decide (t < 1) || decide (t > n)) = true) := by
    simp only [Bool.or_eq_true, decide_eq_true_eq]
    omega
  have hB : ¬(c + 1 > GOTO_MAX_JUMPS) := by omega
  rw [gotoResume, if_neg hA, if_neg hB]

theorem runJumps_all_in_range : ∀ (ts : List Nat) (n c : Nat),
    (∀ t ∈ ts, 1 ≤ t ∧ t ≤ n) → c + ts.length ≤ GOTO_MAX_JUMPS →
    runJumps n c ts = .ok (c + ts.length) := by
  intro ts
  induction ts with
  | nil => intro n c _ _; simp [runJumps]
  | cons t ts ih =>
    intro n c hall hle
    obtain ⟨h1, h2⟩ := hall t (by simp)
    rw [List.length_cons] at hle
    rw [runJumps, gotoResume_in_range n c t h1 h2 (by omega)]
    show runJumps n (c + 1) ts = .ok (c + (t :: ts).length)
    rw [ih n (c + 1) (fun u hu => hall u (by simp [hu])) (by omega)]
    have : c + 1 + ts.length = c + (t :: ts).length := by
      rw [List.length_cons]
      omega
    rw [this]

theorem runJumps_append (n : Nat) : ∀ (xs ys : List Nat) (c : Nat),
    runJumps n c (xs ++ ys) =
      match runJumps n c xs with
      | .ok c2 => runJumps n c2 ys
      | .error e => .error e := by
  intro xs
  induction xs with
  | nil => intro ys c; simp [runJumps]
  | cons x xs ih =>
    intro ys c
    rw [List.cons_append, runJumps, runJumps]
    cases hg : gotoResume n c x with
    | ok p => exact ih ys p.1
    | error e => simp

/-- C4.  A goto whose target is outside [1, lineCount] makes the driver
raise the out-of-range RuntimeError regardless of the current jump count
(the validation precedes the increment, so the failed goto is never
counted); and in one program run, any 1001 successive in-range gotos see
the first 1000 succeed (the counter reaching exactly 1000) while the
1001st raises the maximum-jumps RuntimeError. -/
theorem c4_goto_bounds :
    (∀ (n c t : Nat), t < 1 ∨ n < t →
      gotoResume n c t = .error (.runtimeError ("Goto target line " ++ toString t ++
        " is out of range (1-" ++ toString n ++ ")"))) ∧
    (∀ (n : Nat) (ts : List Nat),
      (∀ t ∈ ts, 1 ≤ t ∧ t ≤ n) → ts.length = GOTO_MAX_JUMPS + 1 →
      runJumps n 0 (ts.take GOTO_MAX_JUMPS) = .ok GOTO_MAX_JUMPS ∧
      runJumps n 0 ts =
        .error (.runtimeError "Maximum goto jumps exceeded (1000). Possible infinite loop.")) := by
  constructor
  · intro n c t h
    have hA : (decide (t < 1) || decide (t > n)) = true := by
      simp only [Bool.or_eq_true, decide_eq_true_eq]
      omega
    rw [gotoResume, if_pos hA]
  · intro n ts hall hlen
    have htake : ∀ t ∈ ts.take GOTO_MAX_JUMPS, 1 ≤ t ∧ t ≤ n :=
      fun t ht => hall t (List.take_subset _ _ ht)
    have hlentake : (ts.take GOTO_MAX_JUMPS).length = GOTO_MAX_JUMPS := by
      rw [List.length_take, hlen]
      omega
    have h1 : runJumps n 0 (ts.take GOTO_MAX_JUMPS) = .ok GOTO_MAX_JUMPS := by
      have := runJumps_all_in_range (ts.take GOTO_MAX_JUMPS) n 0 htake
        (by rw [hlentake]; omega)
      rw [this, hlentake]
      simp
    refine ⟨h1, ?_⟩
    have hdlen : (ts.drop GOTO_MAX_JUMPS).length = 1 := by
      rw [List.length_drop, hlen]
      omega
    obtain ⟨t, hd⟩ := List.length_eq_one.mp hdlen
    have hmem : t ∈ ts := List.drop_subset _ _ (by rw [hd]; simp)
    obtain ⟨ht1, ht2⟩ := hall t hmem
    have hsplit : ts = ts.take GOTO_MAX_JUMPS ++ ts.drop GOTO_MAX_JUMPS :=
      (List.take_append_drop _ _).symm
    rw [hsplit]
    rw [runJumps_append, h1]
    show runJumps n GOTO_MAX_JUMPS (ts.drop GOTO_MAX_JUMPS) = _
    rw [hd, runJumps]
    have hA : ¬((decide (t < 1) || decide (t > n)) = true) := by
      simp only [Bool.or_eq_true, decide_eq_true_eq]
      omega
    have hB : GOTO_MAX_JUMPS + 1 > GOTO_MAX_JUMPS := by omega
    rw [gotoResume, if_neg hA, if_pos hB]
    rfl

/-- C4 witness: line count 3 with target 7 is rejected out of range at
jump count 0; with line count 1, a run of 1001 gotos to line 1 succeeds
1000 times and fails on the 1001st. -/
theorem c4_goto_bounds_witness :
    ((7 : Nat) < 1 ∨ (3 : Nat) < 7) ∧
    gotoResume 3 0 7 =
      .error (.runtimeError "Goto target line 7 is out of range (1-3)") ∧
    (∀ t ∈ List.replicate 1001 1, 1 ≤ t ∧ t ≤ 1) ∧
    (List.replicate 1001 1).length = GOTO_MAX_JUMPS + 1 ∧
    runJumps 1 0 ((List.replicate 1001 1).take GOTO_MAX_JUMPS) = .ok GOTO_MAX_JUMPS ∧
    runJumps 1 0 (List.replicate 1001 1) =
      .error (.runtimeError "Maximum goto jumps exceeded (1000). Possible infinite loop.") := by
  have hrange : (7 : Nat) < 1 ∨ (3 : Nat) < 7 := by omega
  have hall : ∀ t ∈ List.replicate 1001 1, 1 ≤ t ∧ t ≤ 1 := by
    intro t ht
    rw [List.eq_of_mem_replicate ht]
    exact ⟨le_refl 1, le_refl 1⟩
  have hlen : (List.replicate 1001 1).length = GOTO_MAX_JUMPS + 1 := by
    rw [List.length_replicate]
    rfl
  have h2 := c4_goto_bounds.2 1 (List.replicate 1001 1) hall hlen
  have h1 := c4_goto_bounds.1 3 0 7 hrange
  exact ⟨hrange, by simpa using h1, hall, hlen, h2.1, h2.2⟩

/-! # C2: closure-on-dedent and end-of-program forced closure -/

theorem closeIfs_char (n : Nat) : ∀ (ifs : List (Bool × Nat)),
    ifs.Pairwise (fun a b => b.2 < a.2) →
    closeIfs n ifs = ifs.filter (fun f => decide (f.2 < n)) := by
  intro ifs
  induction ifs with
  | nil => intro _; rfl
  | cons f rest ih =>
    intro hp
    rw [List.pairwise_cons] at hp
    obtain ⟨hf, hrest⟩ := hp
    simp only [closeIfs] at ih ⊢
    rw [List.dropWhile_cons, List.filter_cons]
    by_cases hc : n ≤ f.2
    · have h1 : decide (n ≤ f.2) = true := by simp [hc]
      have h2 : decide (f.2 < n) = false := by simp; omega
      rw [h1, h2]
      simp only [if_true, Bool.false_eq_true, if_false]
      exact ih hrest
    · have h1 : decide (n ≤ f.2) = false := by simp; omega
      have h2 : decide (f.2 < n) = true := by simp; omega
      rw [h1, h2]
      simp only [Bool.false_eq_true, if_false, if_true]
      congr 1
      symm
      rw [List.filter_eq_self]
      intro a ha
      have := hf a ha
      simp
      omega

theorem closeLoops_char (g : LoopFrame → Vars → Vars) (n : Nat) :
    ∀ (ls : List LoopFrame) (v : Vars),
    ls.Pairwise (fun a b => b.depth < a.depth) →
    closeLoops (okExec g) n ls v =
      .ok (ls.filter (fun f => decide (f.depth < n)),
        (ls.takeWhile (fun f => decide (n ≤ f.depth))).foldl (fun w f => g f w) v) := by
  intro ls
  induction ls with
  | nil => intro v _; simp [closeLoops]
  | cons f rest ih =>
    intro v hp
    rw [List.pairwise_cons] at hp
    obtain ⟨hf, hrest⟩ := hp
    rw [closeLoops, List.filter_cons, List.takeWhile_cons]
    by_cases hc : n ≤ f.depth
    · rw [if_pos hc]
      have h1 : decide (n ≤ f.depth) = true := by simp [hc]
      have h2 : decide (f.depth < n) = false := by simp; omega
      rw [h1, h2]
      simp only [okExec, Bool.false_eq_true, if_false, if_true, List.foldl_cons]
      exact ih (g f v) hrest
    · rw [if_neg hc]
      have h1 : decide (n ≤ f.depth) = false := by simp; omega
      have h2 : decide (f.depth < n) = true := by simp; omega
      rw [h1, h2]
      simp only [if_true, Bool.false_eq_true, if_false, List.foldl_nil]
      have : List.filter (fun f => decide (f.depth < n)) rest = rest := by
        rw [List.filter_eq_self]
        intro a ha
        have := hf a ha
        simp
        omega
      rw [this]

theorem runRemaining_okExec (g : LoopFrame → Vars → Vars) :
    ∀ (ls : List LoopFrame) (v : Vars),
    runRemaining (okExec g) ls v = .ok (ls.foldl (fun w f => g f w) v) := by
  intro ls
  induction ls with
  | nil => intro v; simp [runRemaining]
  | cons f rest ih =>
    intro v
    rw [runRemaining]
    simp only [okExec, List.foldl_cons]
    exact ih (g f v)

theorem closeLoops_zero (g : LoopFrame → Vars → Vars) :
    ∀ (ls : List LoopFrame) (v : Vars),
    closeLoops (okExec g) 0 ls v = .ok ([], ls.foldl (fun w f => g f w) v) := by
  intro ls
  induction ls with
  | nil => intro v; simp [closeLoops]
  | cons f rest ih =>
    intro v
    rw [closeLoops, if_pos (Nat.zero_le f.depth)]
    simp only [okExec, List.foldl_cons]
    exact ih (g f v)

/-- C2.  On stacks whose recorded depths strictly increase toward the top
(the invariant maintained by pushing only at depths above the current
top), `_close_blocks` pops exactly the frames whose depth is ≥ the
incoming line's indent: popped if-frames are discarded, popped loop-frames
are executed top-down (LIFO, the `takeWhile` prefix folded in pop order),
and every surviving frame has depth < the indent; the else shadow stack is
untouched.  At end of program, `execute_remaining_loops` pops and executes
every remaining loop frame LIFO, which coincides with the loop-stack
closure a dedent to depth 0 would perform. -/
theorem c2_close_blocks_spec :
    (∀ (g : LoopFrame → Vars → Vars) (n : Nat) (st : InterpState),
      st.ifStack.Pairwise (fun a b => b.2 < a.2) →
      st.loopStack.Pairwise (fun a b => b.depth < a.depth) →
      closeBlocksWith (okExec g) n st = .ok
        { varEnv := (st.loopStack.takeWhile (fun f => decide (n ≤ f.depth))).foldl
            (fun w f => g f w) st.varEnv,
          ifStack := st.ifStack.filter (fun f => decide (f.2 < n)),
          elseStack := st.elseStack,
          loopStack := st.loopStack.filter (fun f => decide (f.depth < n)) }) ∧
    (∀ (g : LoopFrame → Vars → Vars) (st : InterpState),
      executeRemainingLoopsWith (okExec g) st =
        .ok { st with
          varEnv := st.loopStack.foldl (fun w f => g f w) st.varEnv,
          loopStack := [] } ∧
      closeLoops (okExec g) 0 st.loopStack st.varEnv =
        .ok ([], st.loopStack.foldl (fun w f => g f w) st.varEnv)) := by
  constructor
  · intro g n st hifs hloops
    rw [closeBlocksWith, closeLoops_char g n st.loopStack st.varEnv hloops,
      closeIfs_char n st.ifStack hifs]
  · intro g st
    exact ⟨by rw [executeRemainingLoopsWith, runRemaining_okExec],
      closeLoops_zero g st.loopStack st.varEnv⟩

/-- C2 witness: a dedent to depth 2 over sorted stacks pops the frames at
depths ≥ 2, executing the popped loop frame, and end-of-program closure
executes everything. -/
theorem c2_close_blocks_spec_witness :
    ([((true : Bool), (2 : Nat)), (false, 0)] :
        List (Bool × Nat)).Pairwise (fun a b => b.2 < a.2) ∧
    ([⟨.intLit 1, 3, []⟩, ⟨.intLit 0, 1, []⟩] :
        List LoopFrame).Pairwise (fun a b => b.depth < a.depth) ∧
    closeBlocksWith (okExec (fun f w => insertVar "mark" (.int f.depth) w)) 2
        ⟨[], [(true, 2), (false, 0)], [(false, 5)],
          [⟨.intLit 1, 3, []⟩, ⟨.intLit 0, 1, []⟩]⟩ = .ok
      { varEnv := (([⟨.intLit 1, 3, []⟩, ⟨.intLit 0, 1, []⟩] :
            List LoopFrame).takeWhile (fun f => decide (2 ≤ f.depth))).foldl
          (fun w f => insertVar "mark" (.int f.depth) w) [],
        ifStack := ([((true : Bool), (2 : Nat)), (false, 0)] :
          List (Bool × Nat)).filter (fun f => decide (f.2 < 2)),
        elseStack := [(false, 5)],
        loopStack := ([⟨.intLit 1, 3, []⟩, ⟨.intLit 0, 1, []⟩] :
          List LoopFrame).filter (fun f => decide (f.depth < 2)) } ∧
    executeRemainingLoopsWith (okExec (fun f w => insertVar "mark" (.int f.depth) w))
        ⟨[], [(true, 2), (false, 0)], [(false, 5)],
          [⟨.intLit 1, 3, []⟩, ⟨.intLit 0, 1, []⟩]⟩ = .ok
      { varEnv := ([⟨.intLit 1, 3, []⟩, ⟨.intLit 0, 1, []⟩] :
            List LoopFrame).foldl (fun w f => insertVar "mark" (.int f.depth) w) [],
        ifStack := [(true, 2), (false, 0)],
        elseStack := [(false, 5)],
        loopStack := [] } := by
  have hifs : ([((true : Bool), (2 : Nat)), (false, 0)] :
      List (Bool × Nat)).Pairwise (fun a b => b.2 < a.2) := by
    simp [List.pairwise_cons]
  have hloops : ([⟨.intLit 1, 3, []⟩, ⟨.intLit 0, 1, []⟩] :
      List LoopFrame).Pairwise (fun a b => b.depth < a.depth) := by
    simp [List.pairwise_cons]
  refine ⟨hifs, hloops, ?_, ?_⟩
  · exact c2_close_blocks_spec.1 (fun f w => insertVar "mark" (.int f.depth) w) 2
      ⟨[], [(true, 2), (false, 0)], [(false, 5)],
        [⟨.intLit 1, 3, []⟩, ⟨.intLit 0, 1, []⟩]⟩ hifs hloops
  · exact (c2_close_blocks_spec.2 (fun f w => insertVar "mark" (.int f.depth) w)
      ⟨[], [(true, 2), (false, 0)], [(false, 5)],
        [⟨.intLit 1, 3, []⟩, ⟨.intLit 0, 1, []⟩]⟩).1

/-! # C10: the else shadow stack only grows -/

theorem closeBlocksWith_ok_elseStack
    (e : LoopFrame → Vars → Except GuythonErr Vars) (i : Nat)
    (st s : InterpState) (h : closeBlocksWith e i st = .ok s) :
    s.elseStack = st.elseStack := by
  rw [closeBlocksWith] at h
  cases hcl : closeLoops e i st.loopStack st.varEnv with
  | ok p =>
    rw [hcl] at h
    cases h
    rfl
  | error e2 =>
    rw [hcl] at h
    cases h

theorem handleElse_elseStack (i : Nat) (st s : InterpState)
    (h : handleElse i st = .ok s) : s.elseStack = st.elseStack := by
  rw [handleElse] at h
  cases hes : st.elseStack with
  | nil => rw [hes] at h; cases h
  | cons top rest =>
    rw [hes] at h
    obtain ⟨b, d⟩ := top
    dsimp only at h
    by_cases hc : i ≤ d
    · rw [if_pos hc] at h; cases h
    · rw [if_neg hc] at h
      cases h
      rfl

theorem stepOp_elseStack_suffix (g : LoopFrame → Vars → Vars) (op : StackOp)
    (st : InterpState) : st.elseStack.IsSuffix (stepOp g op st).elseStack := by
  cases op with
  | ifOp c i =>
    simp only [stepOp]
    cases he : handleIf c i st with
    | ok s =>
      rw [handleIf] at he
      cases hev : evaluate c st.varEnv with
      | ok cv =>
        rw [hev] at he
        cases he
        exact List.suffix_cons _ _
      | error e2 =>
        rw [hev] at he
        cases he
    | error e2 => exact List.suffix_refl _
  | elseOp i =>
    simp only [stepOp]
    cases he : handleElse i st with
    | ok s => rw [handleElse_elseStack i st s he]
    | error e2 => exact List.suffix_refl _
  | closeOp i =>
    simp only [stepOp]
    cases he : closeBlocksWith (okExec g) i st with
    | ok s => rw [closeBlocksWith_ok_elseStack (okExec g) i st s he]
    | error e2 => exact List.suffix_refl _
  | assignOp x e =>
    simp only [stepOp]
    cases handleAssignment x e st.varEnv with
    | ok v => exact List.suffix_refl _
    | error e2 => exact List.suffix_refl _

theorem runOps_elseStack_suffix (g : LoopFrame → Vars → Vars) :
    ∀ (ops : List StackOp) (st : InterpState),
    st.elseStack.IsSuffix (runOps g ops st).elseStack := by
  intro ops
  induction ops with
  | nil => intro st; exact List.suffix_refl _
  | cons op ops ih =>
    intro st
    exact (stepOp_elseStack_suffix g op st).trans (ih (stepOp g op st))

/-- C10.  The else shadow stack only ever grows: across any dispatched
sequence of stack operations, the initial else stack survives as a suffix
of the final one; a successfully evaluated `if` pushes exactly one
complement entry on top; block closure, `else`, and assignment leave the
else stack untouched; and a subsequent `else` reads the TOP of the else
stack — the entry of the most recently executed `if` of the entire run —
even if that if's own block frame was popped long before. -/
theorem c10_else_stack_grows :
    (∀ (g : LoopFrame → Vars → Vars) (ops : List StackOp) (st : InterpState),
      st.elseStack.IsSuffix (runOps g ops st).elseStack) ∧
    (∀ (cond : GExpr) (i : Nat) (st : InterpState) (cv : Val),
      evaluate cond st.varEnv = .ok cv →
      handleIf cond i st = .ok { st with
        ifStack := (cv.truthy, i) :: st.ifStack,
        elseStack := (!cv.truthy, i) :: st.elseStack }) ∧
    (∀ (g : LoopFrame → Vars → Vars) (i : Nat) (st : InterpState),
      (stepOp g (.closeOp i) st).elseStack = st.elseStack) ∧
    (∀ (g : LoopFrame → Vars → Vars) (i : Nat) (st : InterpState),
      (stepOp g (.elseOp i) st).elseStack = st.elseStack) ∧
    (∀ (g : LoopFrame → Vars → Vars) (x : String) (e : GExpr) (st : InterpState),
      (stepOp g (.assignOp x e) st).elseStack = st.elseStack) ∧
    (∀ (i : Nat) (st : InterpState) (b : Bool) (d : Nat) (rest : List (Bool × Nat)),
      st.elseStack = (b, d) :: rest → d < i →
      handleElse i st = .ok { st with ifStack := (b, i) :: st.ifStack }) := by
  refine ⟨?_, ?_, ?_, ?_, ?_, ?_⟩
  · exact fun g ops st => runOps_elseStack_suffix g ops st
  · intro cond i st cv hev
    rw [handleIf, hev]
  · intro g i st
    simp only [stepOp]
    cases he : closeBlocksWith (okExec g) i st with
    | ok s => exact closeBlocksWith_ok_elseStack (okExec g) i st s he
    | error e2 => rfl
  · intro g i st
    simp only [stepOp]
    cases he : handleElse i st with
    | ok s => exact handleElse_elseStack i st s he
    | error e2 => rfl
  · intro g x e st
    simp only [stepOp]
    cases handleAssignment x e st.varEnv with
    | ok v => rfl
    | error e2 => rfl
  · intro i st b d rest hes hd
    rw [handleElse, hes]
    dsimp only
    rw [if_neg (show ¬(i ≤ d) by omega)]

/-- C10 witness: after an if at depth 0 whose block is closed and a later
else at depth 1, the initial else stack survives as a suffix, and the else
pairs with the entry the if pushed. -/
theorem c10_else_stack_grows_witness :
    (⟨[], [], [((true : Bool), (5 : Nat))], []⟩ : InterpState).elseStack.IsSuffix
      (runOps (fun _ w => w)
        [.ifOp (.boolLit true) 0, .closeOp 0, .elseOp 1]
        ⟨[], [], [(true, 5)], []⟩).elseStack ∧
    evaluate (.boolLit true) ([] : Vars) = .ok (.bool true) ∧
    handleIf (.boolLit true) 0 ⟨[], [], [(true, 5)], []⟩ =
      .ok ⟨[], [(true, 0)], [(false, 0), (true, 5)], []⟩ ∧
    (⟨[], [], [(false, 0), (true, 5)], []⟩ : InterpState).elseStack =
      (false, 0) :: [(true, 5)] ∧ (0 : Nat) < 1 ∧
    handleElse 1 ⟨[], [], [(false, 0), (true, 5)], []⟩ =
      .ok ⟨[], [(false, 1)], [(false, 0), (true, 5)], []⟩ := by
  have hev : evaluate (.boolLit true) ([] : Vars) = .ok (.bool true) := by
    simp [evaluate, evalNode]
  refine ⟨c10_else_stack_grows.1 (fun _ w => w)
      [.ifOp (.boolLit true) 0, .closeOp 0, .elseOp 1] ⟨[], [], [(true, 5)], []⟩,
    hev, ?_, rfl, by omega, ?_⟩
  · simpa using c10_else_stack_grows.2.1 (.boolLit true) 0 ⟨[], [], [(true, 5)], []⟩
      (.bool true) hev
  · simpa using c10_else_stack_grows.2.2.2.2.2 1 ⟨[], [], [(false, 0), (true, 5)], []⟩
      false 0 [(true, 5)] rfl (by omega)

end Guython
